import Mathlib

/-!
Verification of the moving-average crossover trading bot (`trading_bot.py`).

The bot fetches OHLCV bars from a brokerage API (with a three-tier
fallback), computes a 5-bar and a 20-bar rolling mean of the closing
price, derives a categorical signal and its first difference, and
dispatches market orders based on the final difference and the held
quantity.  We embed the bot shallowly: prices are exact rationals,
NaN-producing pandas operations return `Option` values, timestamps are
measured in whole days, and every external API call is a point in an
environment record that either succeeds with a value or raises.
-/

namespace DayTrading

/-- Trading symbol fixed in `__init__` (`self.symbol = 'SPY'`). -/
def symbol : String := "SPY"

/-- Short moving-average period (`self.short_window = 5`). -/
def short_window : Nat := 5

/-- Long moving-average period (`self.long_window = 20`). -/
def long_window : Nat := 20

/-- Number of shares per trade (`self.position_size = 10`). -/
def position_size : Int := 10

/-- One OHLCV bar.  The index timestamp is measured in whole days, the
price and volume columns are exact rationals. -/
structure Bar where
  timestamp : Int
  bar_open : ℚ
  high : ℚ
  low : ℚ
  close : ℚ
  volume : ℚ
deriving DecidableEq

/-- The `close` column of the dataframe (`data['close']`). -/
def closes (bars : List Bar) : List ℚ := bars.map Bar.close

/-- Row `i` of `series.rolling(window=w).mean()`: the arithmetic mean of
the `w` entries ending at row `i`, and NaN (`none`) while the trailing
window has not yet filled. -/
def rollingMean (w : Nat) (xs : List ℚ) (i : Nat) : Option ℚ :=
  if w ≤ i + 1 then some (((xs.drop (i + 1 - w)).take w).sum / (w : ℚ)) else none

/-- The pandas comparison `a > b` on float series: `False` whenever either
operand is NaN (`none`). -/
def optGt : Option ℚ → Option ℚ → Bool
  | some a, some b => decide (b < a)
  | _, _ => false

/-- Row `i` of the `signal` column: the column is initialised to `0` and
rows from `short_window` on are overwritten with
`np.where(short_ma > long_ma, 1, -1)`. -/
def signal (bars : List Bar) (i : Nat) : Int :=
  if i < short_window then 0
  else if optGt (rollingMean short_window (closes bars) i)
      (rollingMean long_window (closes bars) i) then 1 else -1

/-- Row `i` of `data['signal'].diff()` (the `position` column): NaN at row
0, otherwise the difference with the previous row. -/
def position (bars : List Bar) (i : Nat) : Option Int :=
  if i = 0 then none else some (signal bars i - signal bars (i - 1))

/-- The dataframe handed to `calculate_signals`: the fetched bar columns
plus the four derived columns the function writes in place (empty lists
until they are written). -/
structure Frame where
  bars : List Bar
  short_ma : List (Option ℚ)
  long_ma : List (Option ℚ)
  signal_col : List Int
  position_col : List (Option Int)

/-- A freshly fetched dataframe: bar columns only. -/
def Frame.ofBars (bars : List Bar) : Frame := ⟨bars, [], [], [], []⟩

/-- `calculate_signals(data)`: returns the mutated dataframe together with
`(signal, position_change, price)` read off the last row, or `none` when
the series is shorter than `long_window` (the Python `(None, None, None)`
early return, which happens before any column is written). -/
def calculate_signals (f : Frame) : Frame × Option (Int × Option Int × ℚ) :=
  if f.bars.length < long_window then (f, none)
  else
    let n := f.bars.length
    let cs := closes f.bars
    let f' : Frame :=
      { f with
        short_ma := (List.range n).map (rollingMean short_window cs)
        long_ma := (List.range n).map (rollingMean long_window cs)
        signal_col := (List.range n).map (signal f.bars)
        position_col := (List.range n).map (position f.bars) }
    (f', some (signal f.bars (n - 1), position f.bars (n - 1), cs.getD (n - 1) 0))

/-- Result of one external API call: either a value or a raised exception. -/
inductive Res (α : Type) where
  | ok (val : α)
  | err
deriving DecidableEq

/-- One entry of `api.list_positions()`. -/
structure BrokerPosition where
  symbol : String
  qty : Int

/-- The broker responses consumed by a single run: the market clock, the
three `get_bars` tiers (recent minute bars, recent daily bars, older
historical daily bars), the open positions, the account query, and the
current time (`datetime.now()`) in whole days. -/
structure Env where
  clock : Res Bool
  tier1 : Res (List Bar)
  tier2 : Res (List Bar)
  tier3 : Res (List Bar)
  positions : Res (List BrokerPosition)
  account : Res Unit
  now : Int

/-- `is_market_open`: `clock.is_open`, with an exception logged and
converted to `False`. -/
def is_market_open (e : Env) : Bool :=
  match e.clock with
  | .ok b => b
  | .err => false

/-- The loop body of `get_current_position`: the quantity of the first
position whose symbol matches, else 0. -/
def find_symbol_qty : List BrokerPosition → Int
  | [] => 0
  | p :: ps => if p.symbol = symbol then p.qty else find_symbol_qty ps

/-- `get_current_position`: scan `list_positions()`; an exception is
logged and converted to 0. -/
def get_current_position (e : Env) : Int :=
  match e.positions with
  | .ok ps => find_symbol_qty ps
  | .err => 0

/-- Third `get_bars` tier (older historical daily data): an empty result
gives `None`; an exception here propagates to the outer handler, which
also returns `None`. -/
def tier3_result (e : Env) : Option (List Bar) :=
  match e.tier3 with
  | .ok bars => if bars.isEmpty then none else some bars
  | .err => none

/-- Second `get_bars` tier (recent daily data): accepted only when
non-empty and at least `long_window` bars long, otherwise fall through
to the third tier; an exception is logged and falls through as well. -/
def tier2_result (e : Env) : Option (List Bar) :=
  match e.tier2 with
  | .ok bars =>
      if !bars.isEmpty && decide (long_window ≤ bars.length) then some bars
      else tier3_result e
  | .err => tier3_result e

/-- `get_market_data`: first `get_bars` tier (recent minute data),
accepted only when non-empty and at least `long_window` bars long,
otherwise falling through the remaining tiers. -/
def get_market_data (e : Env) : Option (List Bar) :=
  match e.tier1 with
  | .ok bars =>
      if !bars.isEmpty && decide (long_window ≤ bars.length) then some bars
      else tier2_result e
  | .err => tier2_result e

/-- Side of a market order. -/
inductive Side where
  | buy
  | sell
deriving DecidableEq

/-- The order submissions issued by the trading branch of `run_strategy`
(lines 249-268) as a function of `position_change` and the held
quantity: a `+2` crossover flattens any short and buys `position_size`
unless already long; a `-2` crossover sells the full held quantity
unless already short; anything else submits nothing. -/
def dispatch_orders (position_change : Option Int) (current_qty : Int) :
    List (Side × Int) :=
  if position_change = some 2 then
    if current_qty ≤ 0 then
      (if current_qty < 0 then [(Side.buy, |current_qty|)] else [])
        ++ [(Side.buy, position_size)]
    else []
  else if position_change = some (-2) then
    if 0 ≤ current_qty then
      if 0 < current_qty then [(Side.sell, current_qty)] else []
    else []
  else []

/-- The signed position that results from executing a list of market
orders starting from `qty` held shares. -/
def apply_orders (orders : List (Side × Int)) (qty : Int) : Int :=
  orders.foldl (fun q o => match o.1 with | Side.buy => q + o.2 | Side.sell => q - o.2) qty

/-- Externally visible steps of one run, in order: the market-closed log,
the market-data fetch, the staleness notice, each order submission, and
the final account-status log (with its success flag). -/
inductive Action where
  | logClosed
  | fetch
  | logStale (days_old : Int)
  | order (side : Side) (qty : Int)
  | logAccount (ok : Bool)
deriving DecidableEq

/-- `data.index[-1]` of a bar series, in whole days. -/
def latest_timestamp (bars : List Bar) : Int := (bars.map Bar.timestamp).getLastD 0

/-- The final account-status log of `run_strategy` (success or logged
exception). -/
def account_action (e : Env) : Action :=
  Action.logAccount (match e.account with | .ok _ => true | .err => false)

/-- `run_strategy`: market-open gate, data fetch, signal calculation,
staleness gate, order dispatch, account log — returning the ordered
trace of externally visible steps. -/
def run_strategy (e : Env) : List Action :=
  if is_market_open e then
    match get_market_data e with
    | none => [Action.fetch]
    | some bars =>
        match (calculate_signals (Frame.ofBars bars)).2 with
        | none => [Action.fetch]
        | some res =>
            Action.fetch ::
              ((if 30 < e.now - latest_timestamp bars then
                  [Action.logStale (e.now - latest_timestamp bars)]
                else
                  (dispatch_orders res.2.1 (get_current_position e)).map
                    fun o => Action.order o.1 o.2)
                ++ [account_action e])
  else [Action.logClosed]

/-- Trace of a run with the account-status log removed. -/
def nonAccountActions (t : List Action) : List Action :=
  t.filter fun a => match a with | Action.logAccount _ => false | _ => true

/-- Spec-side description: the trailing window of width `w` ending at
index `i` of a series. -/
def trailingSlice (w : Nat) (xs : List ℚ) (i : Nat) : List ℚ :=
  (xs.take (i + 1)).drop (i + 1 - w)

/-- Spec-side description: the arithmetic mean of a list. -/
def arithMean (l : List ℚ) : ℚ := l.sum / (l.length : ℚ)

/-- Spec-side signal of claim C3 as stated: `0` strictly before the short
window has filled (`i + 1 < short_window`), otherwise `+1` when the
short mean exceeds the long mean and `-1` otherwise. -/
def claimedSignal (bars : List Bar) (i : Nat) : Int :=
  if i + 1 < short_window then 0
  else if optGt (rollingMean short_window (closes bars) i)
      (rollingMean long_window (closes bars) i) then 1 else -1

/-- A bar with all price columns equal to `c` at day `t`. -/
def mkBar (t : Int) (c : ℚ) : Bar := ⟨t, c, c, c, c, 1⟩

/-- 20 bars: 15 closes at 1 followed by 5 closes at 100, so the short
mean first exceeds the long mean exactly at the last index. -/
def bars_up : List Bar := List.replicate 15 (mkBar 0 1) ++ List.replicate 5 (mkBar 0 100)

/-- `bars_up` followed by a crash bar, flipping the signal back to -1. -/
def bars_down : List Bar := bars_up ++ [mkBar 0 (-1000)]

/-- 20 constant-price bars. -/
def cexBars20 : List Bar := List.replicate 20 (mkBar 0 1)

/-- 20 constant closes, as a plain price series. -/
def ones20 : List ℚ := List.replicate 20 1

/-- A single bar at day 0. -/
def cexBar : Bar := mkBar 0 1

/-- Environment whose first two bar tiers raise and whose final tier
returns a single bar, at current day 0. -/
def e_short_fetch : Env := ⟨.ok true, .err, .err, .ok [cexBar], .ok [], .ok (), 0⟩

/-- Environment whose first two bar tiers raise and whose final tier
returns a single bar, at current day 40 (so the bar is stale). -/
def e_stale_short : Env := ⟨.ok true, .err, .err, .ok [cexBar], .ok [], .ok (), 40⟩

/-- Environment fetching 20 bars dated day 0 at current day 40. -/
def e_stale : Env := ⟨.ok true, .ok cexBars20, .err, .err, .ok [], .ok (), 40⟩

/-- Environment whose market clock reports closed. -/
def e_closed : Env := ⟨.ok false, .ok [], .ok [], .ok [], .ok [], .ok (), 0⟩

/-- Environment in which every bar tier yields no data. -/
def e_none : Env := ⟨.ok true, .err, .err, .ok [], .ok [], .ok (), 0⟩

/-- Environment with a working clock and no data, used to contrast with
its clock-failure variant. -/
def e9ok : Env := ⟨.ok true, .ok [], .err, .err, .ok [], .ok (), 0⟩

/-! ## Helper lemmas -/

theorem trailingSlice_eq (w : Nat) (xs : List ℚ) (i : Nat) (hw : w ≤ i + 1) :
    trailingSlice w xs i = (xs.drop (i + 1 - w)).take w := by
  unfold trailingSlice
  rw [List.drop_take]
  congr 1
  omega

theorem trailingSlice_length (w : Nat) (xs : List ℚ) (i : Nat) (hw : w ≤ i + 1)
    (hi : i < xs.length) : (trailingSlice w xs i).length = w := by
  unfold trailingSlice
  rw [List.length_drop, List.length_take]
  omega

theorem rollingMean_filled (w : Nat) (xs : List ℚ) (i : Nat) (hw : w ≤ i + 1)
    (hi : i < xs.length) :
    rollingMean w xs i = some (arithMean (trailingSlice w xs i)) := by
  unfold rollingMean arithMean
  rw [if_pos hw, trailingSlice_length w xs i hw hi, trailingSlice_eq w xs i hw]

theorem rollingMean_unfilled (w : Nat) (xs : List ℚ) (i : Nat) (hw : i + 1 < w) :
    rollingMean w xs i = none := by
  unfold rollingMean
  rw [if_neg (by omega)]

theorem calculate_signals_snd (bars : List Bar) (hlen : long_window ≤ bars.length) :
    (calculate_signals (Frame.ofBars bars)).2 =
      some (signal bars (bars.length - 1), position bars (bars.length - 1),
        (closes bars).getD (bars.length - 1) 0) := by
  unfold calculate_signals
  rw [show (Frame.ofBars bars).bars = bars from rfl, if_neg (Nat.not_lt.mpr hlen)]

theorem calculate_signals_none (bars : List Bar) (hlen : bars.length < long_window) :
    (calculate_signals (Frame.ofBars bars)).2 = none := by
  unfold calculate_signals
  rw [show (Frame.ofBars bars).bars = bars from rfl, if_pos hlen]

theorem run_strategy_closed (e : Env) (ho : is_market_open e = false) :
    run_strategy e = [Action.logClosed] := by
  unfold run_strategy
  rw [if_neg (by simp [ho])]

theorem run_strategy_nodata (e : Env) (ho : is_market_open e = true)
    (hd : get_market_data e = none) : run_strategy e = [Action.fetch] := by
  unfold run_strategy
  rw [if_pos ho]
  simp only [hd]

theorem run_strategy_nosignal (e : Env) (bars : List Bar) (ho : is_market_open e = true)
    (hd : get_market_data e = some bars)
    (hc : (calculate_signals (Frame.ofBars bars)).2 = none) :
    run_strategy e = [Action.fetch] := by
  unfold run_strategy
  rw [if_pos ho]
  simp only [hd]
  simp only [hc]

theorem run_strategy_main (e : Env) (bars : List Bar) (res : Int × Option Int × ℚ)
    (ho : is_market_open e = true) (hd : get_market_data e = some bars)
    (hc : (calculate_signals (Frame.ofBars bars)).2 = some res) :
    run_strategy e =
      Action.fetch ::
        ((if 30 < e.now - latest_timestamp bars then
            [Action.logStale (e.now - latest_timestamp bars)]
          else
            (dispatch_orders res.2.1 (get_current_position e)).map
              fun o => Action.order o.1 o.2)
          ++ [account_action e]) := by
  unfold run_strategy
  rw [if_pos ho]
  simp only [hd]
  simp only [hc]

theorem nonAccount_aux (t : List Action) (b1 b2 : Bool) :
    nonAccountActions (Action.fetch :: (t ++ [Action.logAccount b1])) =
      nonAccountActions (Action.fetch :: (t ++ [Action.logAccount b2])) := by
  simp [nonAccountActions, List.filter_append]

theorem run_strategy_eq_of (e e' : Env)
    (h1 : is_market_open e = is_market_open e')
    (h2 : get_market_data e = get_market_data e')
    (h3 : get_current_position e = get_current_position e')
    (h4 : account_action e = account_action e')
    (h5 : e.now = e'.now) :
    run_strategy e = run_strategy e' := by
  unfold run_strategy
  rw [h1, h2, h3, h4, h5]

/-! ## Claims -/

/-- C1: the first difference of the signal series is exactly +2 at an
index where the signal transitions from -1 to +1, exactly -2 where it
transitions from +1 to -1, and 0 at an index where the signal does not
change; and `calculate_signals` hands exactly the final index's delta
(together with the final signal and close) to the caller, which is what
decides a crossover. -/
theorem signal_diff_crossover (bars : List Bar) (i : Nat) (hi : 1 ≤ i) :
    (signal bars (i - 1) = -1 → signal bars i = 1 → position bars i = some 2) ∧
    (signal bars (i - 1) = 1 → signal bars i = -1 → position bars i = some (-2)) ∧
    (signal bars i = signal bars (i - 1) → position bars i = some 0) ∧
    (long_window ≤ bars.length →
      (calculate_signals (Frame.ofBars bars)).2 =
        some (signal bars (bars.length - 1), position bars (bars.length - 1),
          (closes bars).getD (bars.length - 1) 0)) := by
  refine ⟨?_, ?_, ?_, fun h => calculate_signals_snd bars h⟩
  · intro h1 h2
    unfold position
    rw [if_neg (by omega), h1, h2]
    decide
  · intro h1 h2
    unfold position
    rw [if_neg (by omega), h1, h2]
    decide
  · intro h
    unfold position
    rw [if_neg (by omega), h, sub_self]

/-- Witness for C1 at concrete bar series: a -1 to +1 transition yields
delta +2, a +1 to -1 transition yields -2, an unchanged signal yields 0,
and `calculate_signals` returns the final index's values. -/
theorem signal_diff_crossover_witness :
    position bars_up 19 = some 2 ∧ position bars_down 20 = some (-2) ∧
    position bars_up 3 = some 0 ∧
    (calculate_signals (Frame.ofBars bars_up)).2 =
      some (signal bars_up (bars_up.length - 1), position bars_up (bars_up.length - 1),
        (closes bars_up).getD (bars_up.length - 1) 0) :=
  ⟨(signal_diff_crossover bars_up 19 (by decide)).1
      (by with_unfolding_all decide) (by with_unfolding_all decide),
    (signal_diff_crossover bars_down 20 (by decide)).2.1
      (by with_unfolding_all decide) (by with_unfolding_all decide),
    (signal_diff_crossover bars_up 3 (by decide)).2.2.1 (by with_unfolding_all decide),
    (signal_diff_crossover bars_up 19 (by decide)).2.2.2 (by decide)⟩

/-- C2: for a closing-price series of length at least `long_window`, the
rolling means with a full trailing window equal the arithmetic mean of
the trailing `short_window` (respectively `long_window`) closes ending
at that index, and are NaN before the window fills. -/
theorem rolling_means_are_trailing_averages (bars : List Bar) (i : Nat)
    (hlen : long_window ≤ bars.length) (hi : i < bars.length) :
    (short_window ≤ i + 1 →
      rollingMean short_window (closes bars) i =
        some (arithMean (trailingSlice short_window (closes bars) i))) ∧
    (i + 1 < short_window → rollingMean short_window (closes bars) i = none) ∧
    (long_window ≤ i + 1 →
      rollingMean long_window (closes bars) i =
        some (arithMean (trailingSlice long_window (closes bars) i))) ∧
    (i + 1 < long_window → rollingMean long_window (closes bars) i = none) := by
  have hc : (closes bars).length = bars.length := List.length_map _ _
  exact ⟨fun h => rollingMean_filled _ _ _ h (by omega),
    fun h => rollingMean_unfilled _ _ _ h,
    fun h => rollingMean_filled _ _ _ h (by omega),
    fun h => rollingMean_unfilled _ _ _ h⟩

/-- Witness for C2 at a concrete 20-bar series: filled windows produce
the trailing arithmetic mean, unfilled windows produce NaN. -/
theorem rolling_means_witness :
    rollingMean short_window (closes cexBars20) 19 =
      some (arithMean (trailingSlice short_window (closes cexBars20) 19)) ∧
    rollingMean long_window (closes cexBars20) 19 =
      some (arithMean (trailingSlice long_window (closes cexBars20) 19)) ∧
    rollingMean short_window (closes cexBars20) 2 = none ∧
    rollingMean long_window (closes cexBars20) 10 = none :=
  ⟨(rolling_means_are_trailing_averages cexBars20 19 (by decide) (by decide)).1 (by decide),
    (rolling_means_are_trailing_averages cexBars20 19 (by decide) (by decide)).2.2.1 (by decide),
    (rolling_means_are_trailing_averages cexBars20 2 (by decide) (by decide)).2.1 (by decide),
    (rolling_means_are_trailing_averages cexBars20 10 (by decide) (by decide)).2.2.2 (by decide)⟩

/-- C3 counterexample: at index 4 the short window (5 bars) has already
filled, yet the code's signal is 0 there while the claimed signal
(0 exactly before the window fills, -1 otherwise since a NaN long mean
is never exceeded) is -1. -/
theorem signal_zero_band_cex :
    short_window ≤ 4 + 1 ∧ signal cexBars20 4 = 0 ∧ claimedSignal cexBars20 4 = -1 := by
  with_unfolding_all decide

/-- C3 amended: the signal is 0 exactly at the first `short_window`
indices (including index `short_window - 1`, where the short window has
just filled); at later indices it is +1 when the short trailing mean
exceeds the long trailing mean and -1 otherwise, where an unfilled
(NaN) long mean is never exceeded. -/
theorem signal_amended (bars : List Bar) (i : Nat) (hi : i < bars.length) :
    (i < short_window → signal bars i = 0) ∧
    (short_window ≤ i → long_window ≤ i + 1 →
      signal bars i =
        if arithMean (trailingSlice long_window (closes bars) i) <
            arithMean (trailingSlice short_window (closes bars) i) then 1 else -1) ∧
    (short_window ≤ i → i + 1 < long_window → signal bars i = -1) := by
  have hc : (closes bars).length = bars.length := List.length_map _ _
  refine ⟨?_, ?_, ?_⟩
  · intro h
    unfold signal
    rw [if_pos h]
  · intro h5 h20
    have hs := rollingMean_filled short_window (closes bars) i (by omega) (by omega)
    have hl := rollingMean_filled long_window (closes bars) i h20 (by omega)
    unfold signal
    rw [if_neg (by omega), hs, hl]
    unfold optGt
    simp only [decide_eq_true_eq]
  · intro h5 h20
    have hl := rollingMean_unfilled long_window (closes bars) i h20
    unfold signal
    rw [if_neg (by omega), hl]
    cases rollingMean short_window (closes bars) i <;> rfl

/-- Witness for C3 amended at concrete series: index 2 gives 0, index 19
compares the two trailing means, index 10 gives -1 under an unfilled
long window. -/
theorem signal_amended_witness :
    signal bars_up 2 = 0 ∧
    signal bars_up 19 =
      (if arithMean (trailingSlice long_window (closes bars_up) 19) <
          arithMean (trailingSlice short_window (closes bars_up) 19) then 1 else -1) ∧
    signal bars_up 10 = -1 :=
  ⟨(signal_amended bars_up 2 (by decide)).1 (by decide),
    (signal_amended bars_up 19 (by decide)).2.1 (by decide) (by decide),
    (signal_amended bars_up 10 (by decide)).2.2 (by decide) (by decide)⟩

/-- C4: on a +2 crossover, a flat book gets exactly one buy of
`position_size` and no flattening order, a short book gets a flattening
buy of the absolute held quantity followed by a buy of `position_size`,
and a long book gets no order. -/
theorem buy_crossover_dispatch (qty : Int) :
    (qty = 0 → dispatch_orders (some 2) qty = [(Side.buy, position_size)]) ∧
    (qty < 0 →
      dispatch_orders (some 2) qty = [(Side.buy, |qty|), (Side.buy, position_size)]) ∧
    (0 < qty → dispatch_orders (some 2) qty = []) := by
  refine ⟨?_, ?_, ?_⟩
  · rintro rfl
    decide
  · intro h
    unfold dispatch_orders
    rw [if_pos rfl, if_pos (le_of_lt h), if_pos h]
    rfl
  · intro h
    unfold dispatch_orders
    rw [if_pos rfl, if_neg (not_le.mpr h)]

/-- Witness for C4 at held quantities 0, -7 and 3. -/
theorem buy_crossover_dispatch_witness :
    dispatch_orders (some 2) 0 = [(Side.buy, position_size)] ∧
    dispatch_orders (some 2) (-7) = [(Side.buy, |(-7 : Int)|), (Side.buy, position_size)] ∧
    dispatch_orders (some 2) 3 = [] :=
  ⟨(buy_crossover_dispatch 0).1 rfl, (buy_crossover_dispatch (-7)).2.1 (by decide),
    (buy_crossover_dispatch 3).2.2 (by decide)⟩

/-- The net position produced by the dispatcher: a +2 crossover on a
non-long book targets `position_size` shares, a -2 crossover on a
non-short book targets flat, and everything else leaves the book as is. -/
theorem apply_dispatch (pc : Option Int) (qty : Int) :
    apply_orders (dispatch_orders pc qty) qty =
      if pc = some 2 then (if qty ≤ 0 then 10 else qty)
      else if pc = some (-2) then (if 0 ≤ qty then 0 else qty)
      else qty := by
  unfold dispatch_orders
  by_cases h2 : pc = some 2
  · rw [if_pos h2, if_pos h2]
    by_cases hq : qty ≤ 0
    · rw [if_pos hq, if_pos hq]
      by_cases hq' : qty < 0
      · rw [if_pos hq']
        show qty + |qty| + position_size = 10
        rw [abs_of_neg hq', show position_size = 10 from rfl]
        omega
      · rw [if_neg hq']
        show qty + position_size = 10
        rw [show position_size = 10 from rfl]
        omega
    · rw [if_neg hq, if_neg hq]
      rfl
  · rw [if_neg h2, if_neg h2]
    by_cases hm : pc = some (-2)
    · rw [if_pos hm, if_pos hm]
      by_cases hq : (0 : Int) ≤ qty
      · rw [if_pos hq, if_pos hq]
        by_cases hq' : (0 : Int) < qty
        · rw [if_pos hq']
          show qty - qty = 0
          omega
        · rw [if_neg hq']
          show qty = 0
          omega
      · rw [if_neg hq, if_neg hq]
        rfl
    · rw [if_neg hm, if_neg hm]
      rfl

/-- C5: on a -2 crossover with a positive held quantity the dispatcher
submits exactly one sell of the full held quantity and nothing else;
and for every delta the position resulting from the dispatched orders
is never negative unless it was the untouched, already-negative
starting quantity — the dispatcher never opens a short. -/
theorem sell_crossover_flattens (qty : Int) :
    (0 < qty → dispatch_orders (some (-2)) qty = [(Side.sell, qty)]) ∧
    (∀ pc : Option Int,
      apply_orders (dispatch_orders pc qty) qty < 0 →
        apply_orders (dispatch_orders pc qty) qty = qty) := by
  constructor
  · intro h
    unfold dispatch_orders
    rw [if_neg (by decide), if_pos rfl, if_pos (le_of_lt h), if_pos h]
  · intro pc hneg
    rw [apply_dispatch] at hneg ⊢
    split_ifs at hneg ⊢ <;> omega

/-- Witness for C5: a -2 crossover at held quantity 5 sells exactly 5,
and a no-signal run on an already-short book leaves the quantity as is. -/
theorem sell_crossover_flattens_witness :
    dispatch_orders (some (-2)) 5 = [(Side.sell, 5)] ∧
    apply_orders (dispatch_orders (some 1) (-3)) (-3) = -3 :=
  ⟨(sell_crossover_flattens 5).1 (by decide),
    (sell_crossover_flattens (-3)).2 (some 1) (by decide)⟩

/-- C6 counterexample: a run whose fetched data is a single stale bar
(40 days old, via the final fallback tier) submits no order, but its
trace is exactly the bare fetch — no staleness notice appears, because
signal calculation aborts on the short series before the staleness
check is reached. -/
theorem stale_notice_cex :
    get_market_data e_stale_short = some [cexBar] ∧
    30 < e_stale_short.now - latest_timestamp [cexBar] ∧
    run_strategy e_stale_short = [Action.fetch] := by
  with_unfolding_all decide

/-- C6 amended: whenever the freshest fetched bar is more than 30 days
old, no order is submitted whatever the signal and delta are; and
provided the run got past the market-open gate and the fetched series
is long enough to compute signals, the staleness notice is logged. -/
theorem stale_data_suppresses_trading (e : Env) (bars : List Bar)
    (hdata : get_market_data e = some bars)
    (hstale : 30 < e.now - latest_timestamp bars) :
    (∀ s q, Action.order s q ∉ run_strategy e) ∧
    (is_market_open e = true → long_window ≤ bars.length →
      Action.logStale (e.now - latest_timestamp bars) ∈ run_strategy e) := by
  by_cases ho : is_market_open e = true
  · by_cases hl : long_window ≤ bars.length
    · have hrun : run_strategy e =
          Action.fetch ::
            ([Action.logStale (e.now - latest_timestamp bars)] ++ [account_action e]) := by
        unfold run_strategy
        rw [if_pos ho]
        simp only [hdata]
        simp only [calculate_signals_snd bars hl]
        rw [if_pos hstale]
      constructor
      · intro s q
        rw [hrun]
        simp [account_action]
      · intro _ _
        rw [hrun]
        simp
    · have hrun : run_strategy e = [Action.fetch] := by
        unfold run_strategy
        rw [if_pos ho]
        simp only [hdata]
        simp only [calculate_signals_none bars (by omega)]
      exact ⟨fun s q => by rw [hrun]; simp, fun _ hl2 => absurd hl2 hl⟩
  · have hrun : run_strategy e = [Action.logClosed] := by
      unfold run_strategy
      rw [if_neg ho]
    exact ⟨fun s q => by rw [hrun]; simp, fun ho2 _ => absurd ho2 ho⟩

/-- Witness for C6 amended: a run fetching 20 bars dated 40 days back
submits no buy order and logs the staleness notice. -/
theorem stale_data_suppresses_trading_witness :
    Action.order Side.buy 10 ∉ run_strategy e_stale ∧
    Action.logStale (e_stale.now - latest_timestamp cexBars20) ∈ run_strategy e_stale := by
  have h := stale_data_suppresses_trading e_stale cexBars20
    (by with_unfolding_all decide) (by decide)
  exact ⟨h.1 Side.buy 10, h.2 (by decide) (by decide)⟩

/-- C7: when the market-open check reports closed, the run neither
fetches bars nor submits any order. -/
theorem market_closed_no_fetch_no_orders (e : Env) (h : is_market_open e = false) :
    Action.fetch ∉ run_strategy e ∧ ∀ s q, Action.order s q ∉ run_strategy e := by
  have hrun : run_strategy e = [Action.logClosed] := by
    unfold run_strategy
    rw [if_neg (by simp [h])]
  rw [hrun]
  exact ⟨by simp, fun s q => by simp⟩

/-- Witness for C7 with a clock reporting closed. -/
theorem market_closed_witness :
    Action.fetch ∉ run_strategy e_closed ∧ Action.order Side.buy 10 ∉ run_strategy e_closed := by
  have h := market_closed_no_fetch_no_orders e_closed rfl
  exact ⟨h.1, h.2 Side.buy 10⟩

/-- C8 counterexample: with the first two tiers raising and the final
tier returning a single bar, the fetcher returns a 1-bar series — it
neither reports unavailability nor guarantees `long_window` bars. -/
theorem fetcher_short_series_cex :
    get_market_data e_short_fetch = some [cexBar] ∧ [cexBar].length < long_window := by
  with_unfolding_all decide

theorem tier3_result_ne_nil (e : Env) (bars : List Bar)
    (h : tier3_result e = some bars) : bars ≠ [] := by
  unfold tier3_result at h
  split at h
  next b =>
    split at h
    · exact absurd h (by simp)
    next hne =>
      cases h
      simpa using hne
  · exact absurd h (by simp)

theorem tier2_result_ne_nil (e : Env) (bars : List Bar)
    (h : tier2_result e = some bars) : bars ≠ [] := by
  unfold tier2_result at h
  split at h
  next b =>
    split at h
    next hc =>
      cases h
      intro hnil
      subst hnil
      simp at hc
    · exact tier3_result_ne_nil e bars h
  · exact tier3_result_ne_nil e bars h

theorem get_market_data_ne_nil (e : Env) (bars : List Bar)
    (h : get_market_data e = some bars) : bars ≠ [] := by
  unfold get_market_data at h
  split at h
  next b =>
    split at h
    next hc =>
      cases h
      intro hnil
      subst hnil
      simp at hc
    · exact tier2_result_ne_nil e bars h
  · exact tier2_result_ne_nil e bars h

/-- C8 amended: the fetcher returns a non-empty bar series or reports
unavailability; when it reports unavailability the run aborts with no
order, and when the final fallback tier hands back a series shorter
than `long_window` the run likewise submits no order because signal
calculation aborts on it. -/
theorem fetcher_amended (e : Env) :
    (∀ bars, get_market_data e = some bars → bars ≠ []) ∧
    (∀ bars, get_market_data e = some bars → bars.length < long_window →
      ∀ s q, Action.order s q ∉ run_strategy e) ∧
    (get_market_data e = none → ∀ s q, Action.order s q ∉ run_strategy e) := by
  refine ⟨fun bars h => get_market_data_ne_nil e bars h, ?_, ?_⟩
  · intro bars h hlen s q
    by_cases ho : is_market_open e = true
    · have hrun : run_strategy e = [Action.fetch] := by
        unfold run_strategy
        rw [if_pos ho]
        simp only [h]
        simp only [calculate_signals_none bars hlen]
      rw [hrun]
      simp
    · have hrun : run_strategy e = [Action.logClosed] := by
        unfold run_strategy
        rw [if_neg ho]
      rw [hrun]
      simp
  · intro h s q
    by_cases ho : is_market_open e = true
    · have hrun : run_strategy e = [Action.fetch] := by
        unfold run_strategy
        rw [if_pos ho]
        simp only [h]
      rw [hrun]
      simp
    · have hrun : run_strategy e = [Action.logClosed] := by
        unfold run_strategy
        rw [if_neg ho]
      rw [hrun]
      simp

/-- Witness for C8 amended: the short-series fetch is non-empty and its
run submits no order, and a run whose final tier is empty submits no
order either. -/
theorem fetcher_amended_witness :
    [cexBar] ≠ [] ∧
    Action.order Side.buy 10 ∉ run_strategy e_short_fetch ∧
    Action.order Side.sell 5 ∉ run_strategy e_none :=
  ⟨(fetcher_amended e_short_fetch).1 [cexBar] (by with_unfolding_all decide),
    (fetcher_amended e_short_fetch).2.1 [cexBar] (by with_unfolding_all decide)
      (by decide) Side.buy 10,
    (fetcher_amended e_none).2.2 (by with_unfolding_all decide) Side.sell 5⟩

/-- C9 counterexample: a failing market-clock query does change control
flow — the failing run stops at the market-closed gate while the same
run with a successful open clock proceeds to fetch data, so the trace
is not the one an (open) successful query would produce. -/
theorem status_failure_changes_flow_cex :
    run_strategy { e9ok with clock := Res.err } ≠ run_strategy e9ok := by
  with_unfolding_all decide

/-- C9 amended: each failing account or status query is logged and
mapped to a default rather than propagated — a failing clock query
behaves exactly like a successful query reporting the market closed, a
failing positions query behaves exactly like a successful query
reporting no open positions, and a failing account-info query changes
nothing but the final account log. -/
theorem status_failure_defaults (e : Env) :
    run_strategy { e with clock := Res.err } = run_strategy { e with clock := Res.ok false } ∧
    run_strategy { e with positions := Res.err } =
      run_strategy { e with positions := Res.ok [] } ∧
    nonAccountActions (run_strategy { e with account := Res.err }) =
      nonAccountActions (run_strategy { e with account := Res.ok () }) := by
  refine ⟨run_strategy_eq_of _ _ rfl rfl rfl rfl rfl,
    run_strategy_eq_of _ _ rfl rfl rfl rfl rfl, ?_⟩
  by_cases ho : is_market_open e = true
  · rcases hd : get_market_data e with _ | bars
    · rw [run_strategy_nodata { e with account := Res.err } (by exact ho) (by exact hd),
        run_strategy_nodata { e with account := Res.ok () } (by exact ho) (by exact hd)]
    · rcases hc : (calculate_signals (Frame.ofBars bars)).2 with _ | res
      · rw [run_strategy_nosignal { e with account := Res.err } bars (by exact ho)
          (by exact hd) (by exact hc),
          run_strategy_nosignal { e with account := Res.ok () } bars (by exact ho)
            (by exact hd) (by exact hc)]
      · rw [run_strategy_main { e with account := Res.err } bars res (by exact ho)
          (by exact hd) (by exact hc),
          run_strategy_main { e with account := Res.ok () } bars res (by exact ho)
            (by exact hd) (by exact hc)]
        exact nonAccount_aux _ false true
  · rw [run_strategy_closed { e with account := Res.err }
      (by exact Bool.not_eq_true _ ▸ Bool.eq_false_iff.mpr (fun hb => ho hb)),
      run_strategy_closed { e with account := Res.ok () }
        (by exact Bool.not_eq_true _ ▸ Bool.eq_false_iff.mpr (fun hb => ho hb))]

/-- C10: `calculate_signals` leaves the bar columns of the dataframe it
mutates untouched — the fetched bar series is unchanged by the signal
computation, which only writes the four derived columns. -/
theorem calculate_signals_preserves_bars (f : Frame) :
    ((calculate_signals f).1).bars = f.bars := by
  unfold calculate_signals
  split
  · rfl
  · rfl

end DayTrading
